import Mathlib

/-!
# Calibration-frame combination and sensor characterization

A shallow embedding of the astroalex calibration engine: the Master
Combiner (`combine`) and the Sensor Characterizer (`characterize`),
together with the frontend request-building logic (`handleUpload` from
`Step2Characterization.tsx`).

The repository's source contains only the web UI and API client for the
engine; the engine itself (the Python backend implementing `combine` and
`characterize`) is not part of the reviewed source tree, so those
operations are modelled from the specification, as noted on each
definition.  Pixel values are modelled as rationals; derived quantities
that involve a square root (standard deviations, read noise) are defined
over the reals on top of the rational core.
-/

namespace Astroalex

/-- A 2-D pixel array: a list of rows of rational pixel values. -/
abbrev Image := List (List ℚ)

/-- The shape of an image: the list of its row lengths.  Two images can be
combined pixel-by-pixel exactly when their shapes are equal. -/
def imgShape (img : Image) : List Nat := img.map List.length

/-- Modelled from the spec: calibration frame kinds (Bias | Dark | Flat). -/
inductive FrameKind where
  | bias
  | dark
  | flat
deriving DecidableEq, Repr

/-- Modelled from the spec: the lowercased kind name used in master
filenames. -/
def FrameKind.lower : FrameKind → String
  | .bias => "bias"
  | .dark => "dark"
  | .flat => "flat"

/-- Modelled from the spec: a single raw calibration exposure (path, kind,
optional exposure time, optional gain, optional filter, pixel array). -/
structure RawFrame where
  path : String
  kind : FrameKind
  exposure_time : Option ℚ
  gain : Option ℤ
  filter : Option String
  pixels : Image
deriving DecidableEq, Repr

/-- The shape of a raw frame's pixel array. -/
def RawFrame.shape (f : RawFrame) : List Nat := imgShape f.pixels

/-- Modelled from the spec: combination methods (Median | Average). -/
inductive CombMethod where
  | median
  | average
deriving DecidableEq, Repr

/-- Modelled from the spec: rejection methods (SigmaClip with a threshold,
MinMax, or None); the SigmaClip default threshold is 3.0. -/
inductive RejMethod where
  | sigmaClip (threshold : ℚ)
  | minMax
  | noRejection
deriving DecidableEq, Repr

/-- Modelled from the spec: the combiner's input — a frame selection, a
combination method, a rejection method, and optional metadata overrides. -/
structure CombinationRequest where
  frames : List RawFrame
  frame_type : FrameKind
  method : CombMethod
  rejection : RejMethod
  exposure_time : Option ℚ
  gain : Option ℤ
  filter : Option String
deriving Repr

/-- Modelled from the spec: the fatal error taxonomy of the engine
(`EmptySelectionError`, `DimensionMismatchError` naming the conflicting
frames, `FrameLoadError`). -/
inductive CalError where
  | emptySelection
  | dimensionMismatch (path1 path2 : String)
  | frameLoad (path : String)
deriving DecidableEq, Repr

/-! ## Shared numeric utilities -/

/-- Arithmetic mean of a list of rationals (0 for the empty list). -/
def listMean (l : List ℚ) : ℚ := l.sum / l.length

/-- Population variance of a list of rationals. -/
def listVar (l : List ℚ) : ℚ := listMean (l.map (fun x => (x - listMean l) ^ 2))

/-- Standard deviation, as a real number. -/
noncomputable def listStd (l : List ℚ) : ℝ := Real.sqrt (listVar l : ℝ)

/-- Minimum of a nonempty list (0 for the empty list). -/
def listMin : List ℚ → ℚ
  | [] => 0
  | [x] => x
  | x :: y :: t => min x (listMin (y :: t))

/-- Maximum of a nonempty list (0 for the empty list). -/
def listMax : List ℚ → ℚ
  | [] => 0
  | [x] => x
  | x :: y :: t => max x (listMax (y :: t))

/-- The statistical median: middle element of the sorted list for odd
length, mean of the two middle elements for even length. -/
def listMedian (l : List ℚ) : ℚ :=
  let s := l.insertionSort (· ≤ ·)
  if l.length % 2 = 1 then s.getD (l.length / 2) 0
  else (s.getD (l.length / 2 - 1) 0 + s.getD (l.length / 2) 0) / 2

/-! ## Rejection -/

/-- Modelled from the spec: one sigma-clipping pass — keep the values whose
distance from the mean is at most `threshold` standard deviations.  The
comparison `|x - mean| ≤ t·σ` is expressed by squares, `(x - mean)² ≤ t²·σ²`,
which is equivalent for a nonnegative threshold and keeps the test rational. -/
def sigmaClipStep (threshold : ℚ) (s : List ℚ) : List ℚ :=
  s.filter (fun x => decide ((x - listMean s) ^ 2 ≤ threshold ^ 2 * listVar s))

/-- Modelled from the spec: iterated sigma clipping — repeat the clipping
pass until no value is discarded, or the iteration cap is exhausted, or
fewer than 2 values remain. -/
def sigmaClipIter : Nat → ℚ → List ℚ → List ℚ
  | 0, _, s => s
  | n + 1, t, s =>
    if s.length < 2 then s
    else
      let s' := sigmaClipStep t s
      if s'.length = s.length then s else sigmaClipIter n t s'

/-- Modelled from the spec: the iteration cap for sigma clipping. -/
def sigmaClipMaxIter : Nat := 5

/-- Remove the first occurrence of a value from a list of rationals. -/
def eraseQ : List ℚ → ℚ → List ℚ
  | [], _ => []
  | x :: xs, a => if x = a then xs else x :: eraseQ xs a

/-- Modelled from the spec: per-pixel-stack outlier rejection.
`noRejection` keeps all values; `minMax` discards the single minimum and
the single maximum when the stack has at least 3 values and keeps all
otherwise; `sigmaClip` iterates the clipping pass. -/
def reject : RejMethod → List ℚ → List ℚ
  | .noRejection, s => s
  | .minMax, s =>
      if 3 ≤ s.length then eraseQ (eraseQ s (listMin s)) (listMax s) else s
  | .sigmaClip t, s => sigmaClipIter sigmaClipMaxIter t s

/-- Modelled from the spec: combine the surviving values of one pixel stack
(`median` takes the statistical median, `average` the arithmetic mean). -/
def combineStack : CombMethod → List ℚ → ℚ
  | .median, s => listMedian s
  | .average, s => listMean s

/-- The stack of values at position `(i, j)` across a list of images. -/
def stackAt (imgs : List Image) (i j : Nat) : List ℚ :=
  imgs.map (fun img => (img.getD i []).getD j 0)

/-- Modelled from the spec: per-pixel-position combination of a list of
same-shaped images — at every position, reject outliers from the stack and
combine the survivors. -/
def combineImages (method : CombMethod) (rej : RejMethod) (imgs : List Image) : Image :=
  let img0 := imgs.headD []
  (List.range img0.length).map (fun i =>
    (List.range (img0.getD i []).length).map (fun j =>
      combineStack method (reject rej (stackAt imgs i j))))

/-! ## Metadata stamping and naming -/

/-- Modelled from the spec: metadata stamping for one field — the request's
explicit override wins; otherwise, if all input frames agree on a value that
value is used; otherwise the field is left unset and the ambiguity flag is
set (a note is appended by the combiner). -/
def stampField {α : Type} [DecidableEq α] (override : Option α) (vals : List (Option α)) :
    Option α × Bool :=
  match override with
  | some v => (some v, false)
  | none =>
      match vals with
      | [] => (none, false)
      | v0 :: rest => if rest.all (fun v => decide (v = v0)) then (v0, false) else (none, true)

/-- Render a rational as a plain decimal string when it is an integer. -/
def ratStr (q : ℚ) : String := if q.den = 1 then toString q.num else toString q

/-- Render an optional value, with a fixed placeholder when unset. -/
def optStr {α : Type} (f : α → String) : Option α → String
  | some v => f v
  | none => "unknown"

/-- Modelled from the spec: the standardized master filename
master_ kind _ exposure s_gain gain .fits with the kind lowercased and a
filter suffix appended for flats. -/
def masterFilename (kind : FrameKind) (exp : Option ℚ) (g : Option ℤ)
    (filt : Option String) : String :=
  "master_" ++ kind.lower ++ "_" ++ optStr ratStr exp ++ "s_gain" ++ optStr toString g ++
    (match kind, filt with
     | .flat, some f => "_" ++ f
     | _, _ => "") ++ ".fits"

/-- The note appended when a metadata field is ambiguous across inputs. -/
def ambiguityNote (field : String) : String :=
  "ambiguous " ++ field ++ " across input frames; field left unset"

/-- Modelled from the spec: the combiner's output record. -/
structure MasterFrame where
  frame_type : FrameKind
  pixels : Image
  source_count : Nat
  method : CombMethod
  rejection : RejMethod
  exposure_time : Option ℚ
  gain : Option ℤ
  filter : Option String
  filename : String
  notes : List String
deriving Repr

/-! ## The Master Combiner -/

/-- Modelled from the spec: `combine` — validate the selection (non-empty,
all pixel arrays of identical dimensions), reject and combine per pixel,
stamp metadata, and assemble the master frame with its standardized
filename.  Fatal validation errors abort before any combination work. -/
def combine (req : CombinationRequest) : Except CalError MasterFrame :=
  match req.frames with
  | [] => .error .emptySelection
  | f0 :: rest =>
      match rest.find? (fun f => decide (¬ f.shape = f0.shape)) with
      | some f => .error (.dimensionMismatch f0.path f.path)
      | none =>
          let se := stampField req.exposure_time (req.frames.map (fun f => f.exposure_time))
          let sg := stampField req.gain (req.frames.map (fun f => f.gain))
          let sf := stampField req.filter (req.frames.map (fun f => f.filter))
          let notes :=
            (if se.2 then [ambiguityNote "exposure_time"] else []) ++
            (if sg.2 then [ambiguityNote "gain"] else []) ++
            (if sf.2 then [ambiguityNote "filter"] else [])
          .ok
            { frame_type := req.frame_type
              pixels := combineImages req.method req.rejection (req.frames.map (fun f => f.pixels))
              source_count := req.frames.length
              method := req.method
              rejection := req.rejection
              exposure_time := se.1
              gain := sg.1
              filter := sf.1
              filename := masterFilename req.frame_type se.1 sg.1 sf.1
              notes := notes }

/-- Modelled from the spec: the files persisted by a `combine` call — the
single master file on success, nothing on a fatal error (fail fast, no
partial writes). -/
def combineFilesWritten (req : CombinationRequest) : List String :=
  match combine req with
  | .ok m => [m.filename]
  | .error _ => []

/-! ## The Sensor Characterizer -/

/-- Flatten a 2-D image into the list of its pixel values. -/
def flattenI (img : Image) : List ℚ := img.flatten

/-- Pixel-wise difference of two same-shaped images. -/
def diffImage (a b : Image) : Image := List.zipWith (List.zipWith (fun x y => x - y)) a b

/-- Modelled from the spec: the small epsilon below which a flat-pair mean
difference or a mean signal is considered degenerate. -/
def epsSignal : ℚ := 1 / 1000000

/-- Modelled from the spec: the smallest representable positive noise floor
(squared, in ADU²) substituted for a zero-variance bias difference. -/
def noiseFloorSq : ℚ := 1 / 1000000000000

/-- The note documenting that full-well capacity is only approximated. -/
def fwcNote : String :=
  "full-well capacity is a coarse approximation derived from the flat pair, not from a saturation series"

/-- Modelled from the spec: a derived sensor profile.  The read noise is
stored through its square in ADU² so that the rational core stays exact;
the real-valued accessors below take the square roots. -/
structure SensorProfile where
  camera_model : String
  gain_setting : Option ℤ
  read_noise_adu_sq : ℚ
  gain : ℚ
  full_well_adu : ℚ
  notes : List String
deriving Repr

/-- Read noise in ADU: the square root of the stored squared estimate. -/
noncomputable def SensorProfile.read_noise_adu (p : SensorProfile) : ℝ :=
  Real.sqrt (p.read_noise_adu_sq : ℝ)

/-- Modelled from the spec: read noise in electrons = read noise in ADU ×
gain. -/
noncomputable def SensorProfile.read_noise_e (p : SensorProfile) : ℝ :=
  p.read_noise_adu * (p.gain : ℝ)

/-- Modelled from the spec: full-well capacity in electrons = full-well in
ADU × gain. -/
def SensorProfile.full_well_e (p : SensorProfile) : ℚ := p.full_well_adu * p.gain

/-- Modelled from the spec, step 1: the variance of the pixel-wise bias
difference image. -/
def biasDiffVar (b1 b2 : RawFrame) : ℚ := listVar (flattenI (diffImage b1.pixels b2.pixels))

/-- Modelled from the spec, step 1: the squared read noise in ADU — half
the bias-difference variance (the difference of two independent noisy
measurements inflates variance by a factor of 2), with the positive noise
floor substituted when the variance is exactly zero. -/
def readNoiseSq (b1 b2 : RawFrame) : ℚ :=
  if biasDiffVar b1 b2 = 0 then noiseFloorSq else biasDiffVar b1 b2 / 2

/-- Modelled from the spec, step 2: the mean signal level of the flat pair. -/
def meanFlatSignal (f1 f2 : RawFrame) : ℚ :=
  (listMean (flattenI f1.pixels) + listMean (flattenI f2.pixels)) / 2

/-- Modelled from the spec, step 2: the variance of the pixel-wise flat
difference image. -/
def flatDiffVar (f1 f2 : RawFrame) : ℚ := listVar (flattenI (diffImage f1.pixels f2.pixels))

/-- Modelled from the spec, step 2: the raw shot-noise variance — half the
flat-difference variance minus the squared ADU read noise. -/
def shotNoiseVarRaw (b1 b2 f1 f2 : RawFrame) : ℚ :=
  flatDiffVar f1 f2 / 2 - readNoiseSq b1 b2

/-- Modelled from the spec: the shot-noise variance clamped at zero. -/
def shotNoiseVar (b1 b2 f1 f2 : RawFrame) : ℚ :=
  if shotNoiseVarRaw b1 b2 f1 f2 < 0 then 0 else shotNoiseVarRaw b1 b2 f1 f2

/-- The degenerate-gain guard: the division defining the gain is performed
only when this is false, so the divisor is then nonzero. -/
def gainDegenerate (b1 b2 f1 f2 : RawFrame) : Prop :=
  shotNoiseVar b1 b2 f1 f2 = 0 ∨ meanFlatSignal f1 f2 ≤ epsSignal

instance (b1 b2 f1 f2 : RawFrame) : Decidable (gainDegenerate b1 b2 f1 f2) := by
  rw [gainDegenerate]
  infer_instance

/-- Modelled from the spec, step 3: gain = mean flat signal / shot-noise
variance, with a sentinel (and a note) in the degenerate cases. -/
def gainEstimate (b1 b2 f1 f2 : RawFrame) : ℚ :=
  if gainDegenerate b1 b2 f1 f2 then 1
  else meanFlatSignal f1 f2 / shotNoiseVar b1 b2 f1 f2

/-- Modelled from the spec: the advisory notes accumulated while
characterizing; the full-well approximation note is always present. -/
def characterizeNotes (b1 b2 f1 f2 : RawFrame) : List String :=
  (if biasDiffVar b1 b2 = 0 then
    ["degenerate input: zero variance detected in bias difference"] else []) ++
  (if flatDiffVar f1 f2 = 0 then
    ["degenerate input: zero variance detected in flat difference"] else []) ++
  (if |listMean (flattenI f1.pixels) - listMean (flattenI f2.pixels)| < epsSignal then
    ["flat pair too similar - gain/read-noise estimate unreliable"] else []) ++
  (if shotNoiseVarRaw b1 b2 f1 f2 < 0 then
    ["negative intermediate shot-noise variance clamped to zero"] else []) ++
  (if gainDegenerate b1 b2 f1 f2 then
    ["gain estimate unreliable: degenerate shot-noise variance or low flat signal; sentinel gain used"]
   else []) ++ [fwcNote]

/-- Modelled from the spec: `characterize` — the paired-frame method.
Dimension mismatch is the only fatal error; every numeric anomaly (zero
variance, flat pair too similar, negative intermediate shot-noise variance,
low signal) degrades to a note on the returned profile. -/
def characterize (b1 b2 f1 f2 : RawFrame) (camera_model : String)
    (gain_setting : Option ℤ) : Except CalError SensorProfile :=
  if ¬ b2.shape = b1.shape then .error (.dimensionMismatch b1.path b2.path)
  else if ¬ f1.shape = b1.shape then .error (.dimensionMismatch b1.path f1.path)
  else if ¬ f2.shape = b1.shape then .error (.dimensionMismatch b1.path f2.path)
  else
    .ok
      { camera_model := camera_model
        gain_setting := gain_setting
        read_noise_adu_sq := readNoiseSq b1 b2
        gain := gainEstimate b1 b2 f1 f2
        full_well_adu := max (listMean (flattenI f1.pixels)) (listMean (flattenI f2.pixels))
        notes := characterizeNotes b1 b2 f1 f2 }

/-- Modelled from the spec: the profiles persisted by a `characterize` call
(keyed by camera model) — one on success, none on a fatal error. -/
def characterizeProfilesWritten (b1 b2 f1 f2 : RawFrame) (camera_model : String)
    (gain_setting : Option ℤ) : List String :=
  match characterize b1 b2 f1 f2 camera_model gain_setting with
  | .ok _ => [camera_model]
  | .error _ => []

/-! ## Frontend request building (`Step2Characterization.tsx`) -/

/-- The characterization request body built by the wizard: the four named
FITS files and the query parameters. -/
structure CharacterizeUpload where
  bias1 : String
  bias2 : String
  flat1 : String
  flat2 : String
  camera_model : String
  gain_setting : Option String
deriving DecidableEq, Repr

/-- From `handleUpload` in `Step2Characterization.tsx`: if either file list
is missing or has fewer than 2 entries, alert and send nothing; otherwise
send exactly the first two bias files as bias1/bias2 and the first two flat
files as flat1/flat2, with the camera model (defaulted) and the gain
setting (appended only when present) as query parameters. -/
def handleUpload (biasFiles flatFiles : Option (List String))
    (cameraModel : Option String) (gainSetting : Option ℤ) : Option CharacterizeUpload :=
  match biasFiles, flatFiles with
  | some bs, some fs =>
      if bs.length < 2 then none
      else if fs.length < 2 then none
      else some
        { bias1 := bs.getD 0 ""
          bias2 := bs.getD 1 ""
          flat1 := fs.getD 0 ""
          flat2 := fs.getD 1 ""
          camera_model := cameraModel.getD "Unknown Camera"
          gain_setting := gainSetting.map toString }
  | _, _ => none

/-! ## List-level helper lemmas -/

theorem listMin_mem : ∀ (s : List ℚ), s ≠ [] → listMin s ∈ s
  | [x], _ => by simp [listMin]
  | x :: y :: t, _ => by
      rw [listMin]
      rcases min_choice x (listMin (y :: t)) with h | h
      · simp [h]
      · have := listMin_mem (y :: t) (by simp)
        rw [h]
        exact List.mem_cons_of_mem _ this

theorem listMin_le : ∀ (s : List ℚ), ∀ x ∈ s, listMin s ≤ x
  | [x], y, hy => by simp_all [listMin]
  | x :: y :: t, z, hz => by
      rw [listMin]
      rcases List.mem_cons.mp hz with rfl | hz'
      · exact min_le_left _ _
      · exact le_trans (min_le_right _ _) (listMin_le (y :: t) z hz')

theorem listMax_mem : ∀ (s : List ℚ), s ≠ [] → listMax s ∈ s
  | [x], _ => by simp [listMax]
  | x :: y :: t, _ => by
      rw [listMax]
      rcases max_choice x (listMax (y :: t)) with h | h
      · simp [h]
      · have := listMax_mem (y :: t) (by simp)
        rw [h]
        exact List.mem_cons_of_mem _ this

theorem le_listMax : ∀ (s : List ℚ), ∀ x ∈ s, x ≤ listMax s
  | [x], y, hy => by simp_all [listMax]
  | x :: y :: t, z, hz => by
      rw [listMax]
      rcases List.mem_cons.mp hz with rfl | hz'
      · exact le_max_left _ _
      · exact le_trans (le_listMax (y :: t) z hz') (le_max_right _ _)

theorem eraseQ_subset : ∀ (l : List ℚ) (a : ℚ), ∀ x ∈ eraseQ l a, x ∈ l
  | [], _, x, hx => by simp [eraseQ] at hx
  | b :: t, a, x, hx => by
      rw [eraseQ] at hx
      by_cases hba : b = a
      · simp only [if_pos hba] at hx
        exact List.mem_cons_of_mem _ hx
      · simp only [if_neg hba, List.mem_cons] at hx
        rcases hx with rfl | hx'
        · exact List.mem_cons_self _ _
        · exact List.mem_cons_of_mem _ (eraseQ_subset t a x hx')

theorem length_eraseQ_of_mem : ∀ (l : List ℚ) (a : ℚ), a ∈ l →
    (eraseQ l a).length + 1 = l.length
  | b :: t, a, ha => by
      rw [eraseQ]
      by_cases hba : b = a
      · simp [if_pos hba]
      · have hat : a ∈ t := by
          rcases List.mem_cons.mp ha with rfl | h
          · exact absurd rfl hba
          · exact h
        simp only [if_neg hba, List.length_cons]
        rw [← length_eraseQ_of_mem t a hat]

theorem perm_cons_eraseQ : ∀ (l : List ℚ) (a : ℚ), a ∈ l → l.Perm (a :: eraseQ l a)
  | b :: t, a, ha => by
      rw [eraseQ]
      by_cases hba : b = a
      · subst hba; simp
      · have hat : a ∈ t := by
          rcases List.mem_cons.mp ha with rfl | h
          · exact absurd rfl hba
          · exact h
        simp only [if_neg hba]
        exact ((perm_cons_eraseQ t a hat).cons b).trans (List.Perm.swap a b _)

theorem mem_eraseQ_of_ne : ∀ (l : List ℚ) (a x : ℚ), x ∈ l → x ≠ a → x ∈ eraseQ l a
  | b :: t, a, x, hx, hxa => by
      rw [eraseQ]
      by_cases hba : b = a
      · rcases List.mem_cons.mp hx with rfl | h
        · exact absurd hba hxa
        · simpa [if_pos hba] using h
      · simp only [if_neg hba, List.mem_cons]
        rcases List.mem_cons.mp hx with rfl | h
        · exact Or.inl rfl
        · exact Or.inr (mem_eraseQ_of_ne t a x h hxa)


theorem rejectMinMax_perm (s : List ℚ) (h3 : 3 ≤ s.length) :
    ∃ mn mx, mn ∈ s ∧ mx ∈ s ∧ (∀ x ∈ s, mn ≤ x) ∧ (∀ x ∈ s, x ≤ mx) ∧
      s.Perm (mn :: mx :: reject .minMax s) := by
  have hne : s ≠ [] := by
    intro h
    rw [h] at h3
    simp at h3
  refine ⟨listMin s, listMax s, listMin_mem s hne, listMax_mem s hne,
    listMin_le s, le_listMax s, ?_⟩
  rw [reject, if_pos h3]
  have h1 : s.Perm (listMin s :: eraseQ s (listMin s)) :=
    perm_cons_eraseQ s (listMin s) (listMin_mem s hne)
  have hmx : listMax s ∈ eraseQ s (listMin s) := by
    by_cases heq : listMax s = listMin s
    · -- all elements equal; the erased list is nonempty and each element equals the max
      have hlen : (eraseQ s (listMin s)).length + 1 = s.length :=
        length_eraseQ_of_mem s (listMin s) (listMin_mem s hne)
      have hpos : 0 < (eraseQ s (listMin s)).length := by omega
      obtain ⟨y, hy⟩ := List.exists_mem_of_length_pos hpos
      have hys : y ∈ s := eraseQ_subset s (listMin s) y hy
      have : y = listMax s := le_antisymm (le_listMax s y hys) (heq ▸ listMin_le s y hys)
      exact this ▸ hy
    · exact mem_eraseQ_of_ne s (listMin s) (listMax s) (listMax_mem s hne) heq
  have h2 : (eraseQ s (listMin s)).Perm (listMax s :: eraseQ (eraseQ s (listMin s)) (listMax s)) :=
    perm_cons_eraseQ _ (listMax s) hmx
  exact h1.trans (h2.cons (listMin s))

theorem rejectMinMax_small (s : List ℚ) (h : s.length < 3) : reject .minMax s = s := by
  rw [reject, if_neg (by omega)]

theorem combineStack_pair (a b : ℚ) (method : CombMethod) :
    combineStack method (reject .minMax [a, b]) = (a + b) / 2 := by
  rw [rejectMinMax_small [a, b] (by simp)]
  cases method with
  | median =>
      rw [combineStack, listMedian]
      rcases le_total a b with hab | hab
      · simp [List.insertionSort, List.orderedInsert, hab]
      · by_cases hba : b ≤ a
        · have : a = b ∨ ¬ (a ≤ b) := by
            rcases eq_or_lt_of_le hba with h | h
            · exact Or.inl h.symm
            · exact Or.inr (not_le.mpr h)
          rcases this with rfl | hnab
          · simp [List.insertionSort, List.orderedInsert]
          · simp only [List.insertionSort, List.orderedInsert, hnab, if_neg, decide_eq_true_eq]
            norm_num [add_comm]
        · exact absurd hab hba
  | average =>
      rw [combineStack, listMean]
      simp

/-- C6: for every pixel stack of size at least 3, MinMax rejection
discards exactly one minimum and one maximum value (the survivors plus one
minimum and one maximum are a permutation of the stack); for stacks of
fewer than 3 values it keeps all values, so a 2-frame stack combines to
exactly the median respectively average of the two values, (a + b) / 2 for
both. -/
theorem C6_minmax_rejection (s : List ℚ) (a b : ℚ) :
    (3 ≤ s.length →
      ∃ mn mx, mn ∈ s ∧ mx ∈ s ∧ (∀ x ∈ s, mn ≤ x) ∧ (∀ x ∈ s, x ≤ mx) ∧
        s.Perm (mn :: mx :: reject .minMax s)) ∧
    (s.length < 3 → reject .minMax s = s) ∧
    combineStack .median (reject .minMax [a, b]) = (a + b) / 2 ∧
    combineStack .average (reject .minMax [a, b]) = (a + b) / 2 :=
  ⟨rejectMinMax_perm s, rejectMinMax_small s, combineStack_pair a b .median,
    combineStack_pair a b .average⟩

theorem C6_minmax_witness :
    (∃ mn mx, mn ∈ ([1, 5, 9] : List ℚ) ∧ mx ∈ ([1, 5, 9] : List ℚ) ∧
      (∀ x ∈ ([1, 5, 9] : List ℚ), mn ≤ x) ∧ (∀ x ∈ ([1, 5, 9] : List ℚ), x ≤ mx) ∧
      ([1, 5, 9] : List ℚ).Perm (mn :: mx :: reject .minMax [1, 5, 9])) ∧
    reject .minMax [(4 : ℚ), 8] = [4, 8] ∧
    combineStack .median (reject .minMax [(4 : ℚ), 8]) = 6 ∧
    combineStack .average (reject .minMax [(4 : ℚ), 8]) = 6 := by
  have h1 := C6_minmax_rejection [1, 5, 9] 4 8
  have h2 := C6_minmax_rejection [(4 : ℚ), 8] 4 8
  refine ⟨h1.1 (by norm_num), h2.2.1 (by norm_num), ?_, ?_⟩
  · rw [h2.2.2.1]; norm_num
  · rw [h2.2.2.2]; norm_num

/- Central success lemma for combine -/
theorem combine_ok (req : CombinationRequest) (f0 : RawFrame) (rest : List RawFrame)
    (hfr : req.frames = f0 :: rest) (hall : ∀ f ∈ rest, f.shape = f0.shape) :
    combine req = .ok
      { frame_type := req.frame_type
        pixels := combineImages req.method req.rejection (req.frames.map (fun f => f.pixels))
        source_count := req.frames.length
        method := req.method
        rejection := req.rejection
        exposure_time := (stampField req.exposure_time (req.frames.map (fun f => f.exposure_time))).1
        gain := (stampField req.gain (req.frames.map (fun f => f.gain))).1
        filter := (stampField req.filter (req.frames.map (fun f => f.filter))).1
        filename := masterFilename req.frame_type
          (stampField req.exposure_time (req.frames.map (fun f => f.exposure_time))).1
          (stampField req.gain (req.frames.map (fun f => f.gain))).1
          (stampField req.filter (req.frames.map (fun f => f.filter))).1
        notes :=
          (if (stampField req.exposure_time (req.frames.map (fun f => f.exposure_time))).2 then
            [ambiguityNote "exposure_time"] else []) ++
          (if (stampField req.gain (req.frames.map (fun f => f.gain))).2 then
            [ambiguityNote "gain"] else []) ++
          (if (stampField req.filter (req.frames.map (fun f => f.filter))).2 then
            [ambiguityNote "filter"] else []) } := by
  have hfind : rest.find? (fun f => decide (¬ f.shape = f0.shape)) = none := by
    rw [List.find?_eq_none]
    intro x hx
    simp [hall x hx]
  rw [combine, hfr]
  simp only [hfind]

theorem sigmaClip_c2_stack :
    reject (.sigmaClip 3) [10, 10, 10, 10, 1000] = [10, 10, 10, 10, 1000] := by
  norm_num [reject, sigmaClipMaxIter, sigmaClipIter, sigmaClipStep, listVar, listMean,
    List.filter]

theorem median_c2_stack : combineStack .median [10, 10, 10, 10, 1000] = 10 := by
  norm_num [combineStack, listMedian, List.insertionSort, List.orderedInsert]

/-- A 1-pixel calibration frame used by the concrete test scenarios. -/
def onePixFrame (p : String) (v : ℚ) : RawFrame :=
  { path := p, kind := .bias, exposure_time := some 0, gain := some 100,
    filter := none, pixels := [[v]] }

def c2Request : CombinationRequest :=
  { frames := [onePixFrame "b1" 10, onePixFrame "b2" 10, onePixFrame "b3" 10,
      onePixFrame "b4" 10, onePixFrame "b5" 1000],
    frame_type := .bias, method := .median, rejection := .sigmaClip 3,
    exposure_time := none, gain := none, filter := none }

/-- C2 (counterexample): on the stack [10, 10, 10, 10, 1000] the SigmaClip
rejection with the default 3.0 threshold does NOT discard the outlier: 1000
is still among the survivors, because a single outlier among five values
lies at most 2 standard deviations from the mean.  This refutes the claim's
assertion that the outlier is discarded. -/
theorem C2_counterexample :
    (1000 : ℚ) ∈ reject (.sigmaClip 3) [10, 10, 10, 10, 1000] := by
  rw [sigmaClip_c2_stack]
  norm_num

/-- C2 (amended): SigmaClip iterates mean/standard-deviation clipping as
specified, but on the stack [10, 10, 10, 10, 1000] with threshold 3.0 no
value is discarded (the lone outlier sits exactly 2 standard deviations
from the mean, below 3.0); the SigmaClip + Median combination nevertheless
outputs exactly 10 because the median itself is robust to the outlier. -/
theorem C2_sigma_clip :
    reject (.sigmaClip 3) [10, 10, 10, 10, 1000] = [10, 10, 10, 10, 1000] ∧
    ∃ m, combine c2Request = .ok m ∧ m.pixels = [[10]] := by
  refine ⟨sigmaClip_c2_stack, ?_⟩
  have hstack : stackAt [[[(10 : ℚ)]], [[10]], [[10]], [[10]], [[1000]]] 0 0 =
      [10, 10, 10, 10, 1000] := by
    norm_num [stackAt]
  have hpix : combineImages .median (.sigmaClip 3) (c2Request.frames.map (fun f => f.pixels)) =
      [[10]] := by
    norm_num [combineImages, c2Request, onePixFrame, List.range, List.range.loop, hstack,
      sigmaClip_c2_stack, median_c2_stack]
  have hok := combine_ok c2Request (onePixFrame "b1" 10)
    [onePixFrame "b2" 10, onePixFrame "b3" 10, onePixFrame "b4" 10, onePixFrame "b5" 1000]
    rfl (by norm_num [onePixFrame, RawFrame.shape, imgShape])
  exact ⟨_, hok, hpix⟩

theorem getD_map_range {α : Type} (n : Nat) (f : Nat → α) (d : α) (i : Nat) (h : i < n) :
    ((List.range n).map f).getD i d = f i := by
  rw [List.getD_eq_getElem?_getD, List.getElem?_map, List.getElem?_range h]
  rfl

theorem combine_ok_inv (req : CombinationRequest) (m : MasterFrame)
    (h : combine req = .ok m) :
    ∃ f0 rest, req.frames = f0 :: rest ∧ (∀ f ∈ rest, f.shape = f0.shape) ∧
      m = { frame_type := req.frame_type
            pixels := combineImages req.method req.rejection (req.frames.map (fun f => f.pixels))
            source_count := req.frames.length
            method := req.method
            rejection := req.rejection
            exposure_time := (stampField req.exposure_time (req.frames.map (fun f => f.exposure_time))).1
            gain := (stampField req.gain (req.frames.map (fun f => f.gain))).1
            filter := (stampField req.filter (req.frames.map (fun f => f.filter))).1
            filename := masterFilename req.frame_type
              (stampField req.exposure_time (req.frames.map (fun f => f.exposure_time))).1
              (stampField req.gain (req.frames.map (fun f => f.gain))).1
              (stampField req.filter (req.frames.map (fun f => f.filter))).1
            notes :=
              (if (stampField req.exposure_time (req.frames.map (fun f => f.exposure_time))).2 then
                [ambiguityNote "exposure_time"] else []) ++
              (if (stampField req.gain (req.frames.map (fun f => f.gain))).2 then
                [ambiguityNote "gain"] else []) ++
              (if (stampField req.filter (req.frames.map (fun f => f.filter))).2 then
                [ambiguityNote "filter"] else []) } := by
  rcases hfr : req.frames with _ | ⟨f0, rest⟩
  · rw [combine, hfr] at h
    exact absurd h (by simp)
  · rcases hfind : rest.find? (fun f => decide (¬ f.shape = f0.shape)) with _ | f
    · have hall : ∀ f ∈ rest, f.shape = f0.shape := by
        intro f hf
        have := List.find?_eq_none.mp hfind f hf
        simpa using this
      have hok := combine_ok req f0 rest hfr hall
      rw [hok] at h
      injection h with h
      subst h
      refine ⟨f0, rest, rfl, hall, ?_⟩
      rw [hfr]
    · rw [combine, hfr] at h
      simp only [hfind] at h
      exact absurd h (by simp)

/-- C3: at every in-range pixel position, combine with Median produces the
statistical median of the surviving values and combine with Average
produces their arithmetic mean; instantiated at the 1, 5, 9 stack by the
witness, where both yield exactly 5. -/
theorem C3_median_average (req : CombinationRequest) (m : MasterFrame)
    (h : combine req = .ok m) (i j : Nat)
    (hi : i < m.pixels.length) (hj : j < (m.pixels.getD i []).length) :
    (req.method = .median → (m.pixels.getD i []).getD j 0 =
        listMedian (reject req.rejection (stackAt (req.frames.map (fun f => f.pixels)) i j))) ∧
    (req.method = .average → (m.pixels.getD i []).getD j 0 =
        listMean (reject req.rejection (stackAt (req.frames.map (fun f => f.pixels)) i j))) := by
  obtain ⟨f0, rest, hfr, hall, hm⟩ := combine_ok_inv req m h
  have hpix : m.pixels =
      (List.range ((req.frames.map (fun f => f.pixels)).headD []).length).map (fun i =>
        (List.range (((req.frames.map (fun f => f.pixels)).headD []).getD i []).length).map
          (fun j => combineStack req.method
            (reject req.rejection (stackAt (req.frames.map (fun f => f.pixels)) i j)))) := by
    rw [hm, combineImages]
  rw [hpix] at hi hj ⊢
  rw [List.length_map, List.length_range] at hi
  rw [getD_map_range _ _ _ i hi] at hj ⊢
  rw [List.length_map, List.length_range] at hj
  rw [getD_map_range _ _ _ j hj]
  constructor
  · intro hmethod
    rw [hmethod]
    rfl
  · intro hmethod
    rw [hmethod]
    rfl

def c3MedianRequest : CombinationRequest :=
  { frames := [onePixFrame "f1" 1, onePixFrame "f2" 5, onePixFrame "f3" 9],
    frame_type := .bias, method := .median, rejection := .noRejection,
    exposure_time := none, gain := none, filter := none }

def c3AverageRequest : CombinationRequest :=
  { frames := [onePixFrame "f1" 1, onePixFrame "f2" 5, onePixFrame "f3" 9],
    frame_type := .bias, method := .average, rejection := .noRejection,
    exposure_time := none, gain := none, filter := none }

theorem C3_median_average_witness :
    (∃ m, combine c3MedianRequest = .ok m ∧ (m.pixels.getD 0 []).getD 0 0 = 5) ∧
    (∃ m, combine c3AverageRequest = .ok m ∧ (m.pixels.getD 0 []).getD 0 0 = 5) := by
  have hshapes : ∀ f ∈ [onePixFrame "f2" 5, onePixFrame "f3" 9],
      f.shape = (onePixFrame "f1" 1).shape := by
    norm_num [onePixFrame, RawFrame.shape, imgShape]
  have hstack : stackAt (c3MedianRequest.frames.map (fun f => f.pixels)) 0 0 = [1, 5, 9] := by
    norm_num [stackAt, c3MedianRequest, onePixFrame]
  have hstack' : stackAt (c3AverageRequest.frames.map (fun f => f.pixels)) 0 0 = [1, 5, 9] := by
    norm_num [stackAt, c3AverageRequest, onePixFrame]
  constructor
  · have hok := combine_ok c3MedianRequest (onePixFrame "f1" 1)
      [onePixFrame "f2" 5, onePixFrame "f3" 9] rfl hshapes
    refine ⟨_, hok, ?_⟩
    have hi : (0 : Nat) <
        (combineImages c3MedianRequest.method c3MedianRequest.rejection
          (c3MedianRequest.frames.map (fun f => f.pixels))).length := by
      norm_num [combineImages, c3MedianRequest, onePixFrame]
    have hj : (0 : Nat) <
        ((combineImages c3MedianRequest.method c3MedianRequest.rejection
          (c3MedianRequest.frames.map (fun f => f.pixels))).getD 0 []).length := by
      norm_num [combineImages, c3MedianRequest, onePixFrame, List.range, List.range.loop,
        getD_map_range]
    have := (C3_median_average c3MedianRequest _ hok 0 0 hi hj).1 rfl
    rw [this, hstack]
    norm_num [c3MedianRequest, reject, listMedian, List.insertionSort, List.orderedInsert]
  · have hok := combine_ok c3AverageRequest (onePixFrame "f1" 1)
      [onePixFrame "f2" 5, onePixFrame "f3" 9] rfl hshapes
    refine ⟨_, hok, ?_⟩
    have hi : (0 : Nat) <
        (combineImages c3AverageRequest.method c3AverageRequest.rejection
          (c3AverageRequest.frames.map (fun f => f.pixels))).length := by
      norm_num [combineImages, c3AverageRequest, onePixFrame]
    have hj : (0 : Nat) <
        ((combineImages c3AverageRequest.method c3AverageRequest.rejection
          (c3AverageRequest.frames.map (fun f => f.pixels))).getD 0 []).length := by
      norm_num [combineImages, c3AverageRequest, onePixFrame, List.range, List.range.loop,
        getD_map_range]
    have := (C3_median_average c3AverageRequest _ hok 0 0 hi hj).2 rfl
    rw [this, hstack']
    norm_num [c3AverageRequest, reject, listMean]

/-- C7: calling combine with an empty frame selection always raises
EmptySelectionError and writes no file. -/
theorem C7_empty_selection (req : CombinationRequest) (h : req.frames = []) :
    combine req = .error .emptySelection ∧ combineFilesWritten req = [] := by
  have hc : combine req = .error .emptySelection := by rw [combine, h]
  exact ⟨hc, by rw [combineFilesWritten, hc]⟩

def emptyRequest : CombinationRequest :=
  { frames := [], frame_type := .dark, method := .median, rejection := .noRejection,
    exposure_time := none, gain := none, filter := none }

theorem C7_empty_selection_witness :
    combine emptyRequest = .error .emptySelection ∧ combineFilesWritten emptyRequest = [] :=
  C7_empty_selection emptyRequest rfl

/-- C1: for every input to combine or characterize in which at least one
frame's pixel-array shape differs from the others', the operation raises
DimensionMismatchError and writes no output file — no master and no
profile is persisted. -/
theorem C1_dimension_mismatch (req : CombinationRequest) (f g : RawFrame)
    (hf : f ∈ req.frames) (hg : g ∈ req.frames) (hfg : ¬ f.shape = g.shape)
    (b1 b2 f1 f2 : RawFrame) (cm : String) (gs : Option ℤ)
    (hch : ¬ (b2.shape = b1.shape ∧ f1.shape = b1.shape ∧ f2.shape = b1.shape)) :
    (∃ p q, combine req = .error (.dimensionMismatch p q)) ∧
    combineFilesWritten req = [] ∧
    (∃ p q, characterize b1 b2 f1 f2 cm gs = .error (.dimensionMismatch p q)) ∧
    characterizeProfilesWritten b1 b2 f1 f2 cm gs = [] := by
  have hcomb : ∃ p q, combine req = .error (.dimensionMismatch p q) := by
    rcases hfr : req.frames with _ | ⟨f0, rest⟩
    · rw [hfr] at hf
      exact absurd hf (List.not_mem_nil f)
    · rcases hfind : rest.find? (fun x => decide (¬ x.shape = f0.shape)) with _ | fbad
      · exfalso
        have hall : ∀ x ∈ rest, x.shape = f0.shape := by
          intro x hx
          have := List.find?_eq_none.mp hfind x hx
          simpa using this
        have hfs : f.shape = f0.shape := by
          rw [hfr] at hf
          rcases List.mem_cons.mp hf with rfl | hmem
          · rfl
          · exact hall f hmem
        have hgs : g.shape = f0.shape := by
          rw [hfr] at hg
          rcases List.mem_cons.mp hg with rfl | hmem
          · rfl
          · exact hall g hmem
        exact hfg (hfs.trans hgs.symm)
      · refine ⟨f0.path, fbad.path, ?_⟩
        rw [combine, hfr]
        simp only [hfind]
  have hchar : ∃ p q, characterize b1 b2 f1 f2 cm gs = .error (.dimensionMismatch p q) := by
    by_cases h1 : b2.shape = b1.shape
    · by_cases h2 : f1.shape = b1.shape
      · by_cases h3 : f2.shape = b1.shape
        · exact absurd ⟨h1, h2, h3⟩ hch
        · exact ⟨b1.path, f2.path, by simp [characterize, h1, h2, h3]⟩
      · exact ⟨b1.path, f1.path, by simp [characterize, h1, h2]⟩
    · exact ⟨b1.path, b2.path, by simp [characterize, h1]⟩
  obtain ⟨p, q, hcq⟩ := hcomb
  obtain ⟨p', q', hcq'⟩ := hchar
  refine ⟨⟨p, q, hcq⟩, ?_, ⟨p', q', hcq'⟩, ?_⟩
  · rw [combineFilesWritten, hcq]
  · rw [characterizeProfilesWritten, hcq']

/-- A 1×2 frame whose shape conflicts with the 1×1 test frames. -/
def widePixFrame (p : String) : RawFrame :=
  { path := p, kind := .bias, exposure_time := some 0, gain := some 100,
    filter := none, pixels := [[1, 2]] }

def mismatchRequest : CombinationRequest :=
  { frames := [onePixFrame "a" 1, widePixFrame "b"],
    frame_type := .bias, method := .median, rejection := .noRejection,
    exposure_time := none, gain := none, filter := none }

theorem C1_dimension_mismatch_witness :
    (∃ p q, combine mismatchRequest = .error (.dimensionMismatch p q)) ∧
    combineFilesWritten mismatchRequest = [] ∧
    (∃ p q, characterize (onePixFrame "a" 1) (widePixFrame "b") (onePixFrame "c" 1)
      (onePixFrame "d" 1) "TestCam" none = .error (.dimensionMismatch p q)) ∧
    characterizeProfilesWritten (onePixFrame "a" 1) (widePixFrame "b") (onePixFrame "c" 1)
      (onePixFrame "d" 1) "TestCam" none = [] := by
  refine C1_dimension_mismatch mismatchRequest (onePixFrame "a" 1) (widePixFrame "b")
    (by simp [mismatchRequest]) (by simp [mismatchRequest]) ?_
    (onePixFrame "a" 1) (widePixFrame "b") (onePixFrame "c" 1) (onePixFrame "d" 1)
    "TestCam" none ?_
  · norm_num [onePixFrame, widePixFrame, RawFrame.shape, imgShape]
  · norm_num [onePixFrame, widePixFrame, RawFrame.shape, imgShape]

/- stampField characterization lemmas -/
theorem stampField_override {α : Type} [DecidableEq α] (v : α) (vals : List (Option α)) :
    stampField (some v) vals = (some v, false) := rfl

theorem stampField_agree {α : Type} [DecidableEq α] (vals : List (Option α)) (c : Option α)
    (hne : vals ≠ []) (hall : ∀ x ∈ vals, x = c) :
    stampField (none : Option α) vals = (c, false) := by
  rcases vals with _ | ⟨v0, rest⟩
  · exact absurd rfl hne
  · have hv0 : v0 = c := hall v0 (List.mem_cons_self _ _)
    rw [stampField]
    have : rest.all (fun v => decide (v = v0)) = true := by
      rw [List.all_eq_true]
      intro x hx
      rw [decide_eq_true_eq, hall x (List.mem_cons_of_mem _ hx), hv0]
    rw [if_pos this, hv0]

theorem stampField_disagree {α : Type} [DecidableEq α] (vals : List (Option α))
    (hdis : ¬ ∃ c, ∀ x ∈ vals, x = c) :
    stampField (none : Option α) vals = (none, true) := by
  rcases vals with _ | ⟨v0, rest⟩
  · exact absurd ⟨none, by simp⟩ hdis
  · rw [stampField]
    have : ¬ rest.all (fun v => decide (v = v0)) = true := by
      intro hall
      rw [List.all_eq_true] at hall
      refine hdis ⟨v0, ?_⟩
      intro x hx
      rcases List.mem_cons.mp hx with rfl | hx'
      · rfl
      · exact decide_eq_true_eq.mp (hall x hx')
    rw [if_neg this]

/-- C9: for each of exposure_time, gain and filter on the combine output:
an explicit request override is carried verbatim; otherwise, if all input
frames agree on a value, that value is carried; otherwise the field is
left unset and an ambiguity note is appended — a value is never taken from
an arbitrary single input when inputs disagree. -/
theorem C9_metadata_stamping (req : CombinationRequest) (m : MasterFrame)
    (h : combine req = .ok m) :
    ((∃ v, req.exposure_time = some v) → m.exposure_time = req.exposure_time) ∧
    (req.exposure_time = none → ∀ c, (∀ f ∈ req.frames, f.exposure_time = c) →
      m.exposure_time = c) ∧
    (req.exposure_time = none → (¬ ∃ c, ∀ f ∈ req.frames, f.exposure_time = c) →
      m.exposure_time = none ∧ ambiguityNote "exposure_time" ∈ m.notes) ∧
    ((∃ v, req.gain = some v) → m.gain = req.gain) ∧
    (req.gain = none → ∀ c, (∀ f ∈ req.frames, f.gain = c) → m.gain = c) ∧
    (req.gain = none → (¬ ∃ c, ∀ f ∈ req.frames, f.gain = c) →
      m.gain = none ∧ ambiguityNote "gain" ∈ m.notes) ∧
    ((∃ v, req.filter = some v) → m.filter = req.filter) ∧
    (req.filter = none → ∀ c, (∀ f ∈ req.frames, f.filter = c) → m.filter = c) ∧
    (req.filter = none → (¬ ∃ c, ∀ f ∈ req.frames, f.filter = c) →
      m.filter = none ∧ ambiguityNote "filter" ∈ m.notes) := by
  obtain ⟨f0, rest, hfr, hall, hm⟩ := combine_ok_inv req m h
  have hne : req.frames ≠ [] := by rw [hfr]; simp
  subst hm
  refine ⟨?_, ?_, ?_, ?_, ?_, ?_, ?_, ?_, ?_⟩
  · rintro ⟨v, hv⟩
    simp only [hv, stampField_override]
  · intro hov c hc
    have : (req.frames.map (fun f => f.exposure_time)) ≠ [] := by simpa using hne
    rw [hov]
    show (stampField none (req.frames.map (fun f => f.exposure_time))).1 = c
    rw [stampField_agree _ c this (by simpa using hc)]
  · intro hov hdis
    have hdis' : ¬ ∃ c, ∀ x ∈ req.frames.map (fun f => f.exposure_time), x = c := by
      rintro ⟨c, hc⟩
      exact hdis ⟨c, by simpa using hc⟩
    constructor
    · rw [hov]
      show (stampField none (req.frames.map (fun f => f.exposure_time))).1 = none
      rw [stampField_disagree _ hdis']
    · show ambiguityNote "exposure_time" ∈ _
      rw [hov]
      have h2 : (stampField (none : Option ℚ) (req.frames.map (fun f => f.exposure_time))).2 = true := by
        rw [stampField_disagree _ hdis']
      simp only [hov] at h2 ⊢
      rw [h2]
      simp
  · rintro ⟨v, hv⟩
    simp only [hv, stampField_override]
  · intro hov c hc
    have : (req.frames.map (fun f => f.gain)) ≠ [] := by simpa using hne
    rw [hov]
    show (stampField none (req.frames.map (fun f => f.gain))).1 = c
    rw [stampField_agree _ c this (by simpa using hc)]
  · intro hov hdis
    have hdis' : ¬ ∃ c, ∀ x ∈ req.frames.map (fun f => f.gain), x = c := by
      rintro ⟨c, hc⟩
      exact hdis ⟨c, by simpa using hc⟩
    constructor
    · rw [hov]
      show (stampField none (req.frames.map (fun f => f.gain))).1 = none
      rw [stampField_disagree _ hdis']
    · show ambiguityNote "gain" ∈ _
      rw [hov]
      have h2 : (stampField (none : Option ℤ) (req.frames.map (fun f => f.gain))).2 = true := by
        rw [stampField_disagree _ hdis']
      simp only [hov] at h2 ⊢
      rw [h2]
      simp
  · rintro ⟨v, hv⟩
    simp only [hv, stampField_override]
  · intro hov c hc
    have : (req.frames.map (fun f => f.filter)) ≠ [] := by simpa using hne
    rw [hov]
    show (stampField none (req.frames.map (fun f => f.filter))).1 = c
    rw [stampField_agree _ c this (by simpa using hc)]
  · intro hov hdis
    have hdis' : ¬ ∃ c, ∀ x ∈ req.frames.map (fun f => f.filter), x = c := by
      rintro ⟨c, hc⟩
      exact hdis ⟨c, by simpa using hc⟩
    constructor
    · rw [hov]
      show (stampField none (req.frames.map (fun f => f.filter))).1 = none
      rw [stampField_disagree _ hdis']
    · show ambiguityNote "filter" ∈ _
      rw [hov]
      have h2 : (stampField (none : Option String) (req.frames.map (fun f => f.filter))).2 = true := by
        rw [stampField_disagree _ hdis']
      simp only [hov] at h2 ⊢
      rw [h2]
      simp

def stampFrameA : RawFrame :=
  { path := "w1", kind := .flat, exposure_time := some 300, gain := some 100,
    filter := some "L", pixels := [[1]] }

def stampFrameB : RawFrame :=
  { path := "w2", kind := .flat, exposure_time := some 300, gain := some 200,
    filter := some "R", pixels := [[2]] }

def stampRequest : CombinationRequest :=
  { frames := [stampFrameA, stampFrameB],
    frame_type := .flat, method := .average, rejection := .noRejection,
    exposure_time := none, gain := none, filter := some "Ha" }

theorem C9_metadata_stamping_witness :
    ∃ m, combine stampRequest = .ok m ∧ m.exposure_time = some 300 ∧
      (m.gain = none ∧ ambiguityNote "gain" ∈ m.notes) ∧ m.filter = some "Ha" := by
  have hok := combine_ok stampRequest stampFrameA [stampFrameB] rfl
    (by norm_num [stampFrameA, stampFrameB, RawFrame.shape, imgShape])
  have h9 := C9_metadata_stamping stampRequest _ hok
  refine ⟨_, hok, ?_, ?_, ?_⟩
  · refine h9.2.1 rfl (some 300) ?_
    intro f hf
    simp only [stampRequest] at hf
    rcases List.mem_cons.mp hf with rfl | hf'
    · rfl
    · rcases List.mem_cons.mp hf' with rfl | hf''
      · rfl
      · exact absurd hf'' (List.not_mem_nil f)
  · refine h9.2.2.2.2.2.1 rfl ?_
    rintro ⟨c, hc⟩
    have h1 := hc stampFrameA (by simp [stampRequest])
    have h2 := hc stampFrameB (by simp [stampRequest])
    rw [show stampFrameA.gain = some 100 from rfl] at h1
    rw [show stampFrameB.gain = some 200 from rfl] at h2
    rw [← h1] at h2
    simp at h2
  · exact h9.2.2.2.2.2.2.1 ⟨"Ha", rfl⟩

theorem stampField_perm {α : Type} [DecidableEq α] (o : Option α)
    (vals vals' : List (Option α)) (hperm : vals.Perm vals') :
    stampField o vals = stampField o vals' := by
  rcases o with _ | v
  · rcases hv : vals with _ | ⟨v0, rest⟩
    · have : vals' = [] := by
        rw [hv] at hperm
        exact hperm.symm.eq_nil
      rw [this]
    · rcases hv' : vals' with _ | ⟨w0, rest'⟩
      · rw [hv'] at hperm
        exact absurd (hv ▸ hperm.eq_nil) (by simp)
      · by_cases hag : ∃ c, ∀ x ∈ vals, x = c
        · obtain ⟨c, hc⟩ := hag
          have hc' : ∀ x ∈ vals', x = c := fun x hx => hc x (hperm.symm.mem_iff.mp hx)
          rw [← hv, ← hv']
          rw [stampField_agree vals c (by rw [hv]; simp) hc]
          rw [stampField_agree vals' c (by rw [hv']; simp) hc']
        · have hag' : ¬ ∃ c, ∀ x ∈ vals', x = c := by
            rintro ⟨c, hc⟩
            exact hag ⟨c, fun x hx => hc x (hperm.mem_iff.mp hx)⟩
          rw [← hv, ← hv']
          rw [stampField_disagree vals hag, stampField_disagree vals' hag']
  · rfl

/-- C8: the filename of a master produced by combine follows the pattern
master_ kind _ exposure s_gain gain .fits (kind lowercased, filter suffix
for flats), and it is identical for every ordering of the same input
frames; the witness evaluates it to master_dark_300s_gain100.fits for Dark
frames with exposure 300 and gain 100 in both orders. -/
theorem C8_filename_pattern (req : CombinationRequest) (m : MasterFrame)
    (fr' : List RawFrame) (hok : combine req = .ok m) (hperm : fr'.Perm req.frames) :
    m.filename = masterFilename req.frame_type m.exposure_time m.gain m.filter ∧
    (combine { req with frames := fr' }).toOption.map (fun x => x.filename) =
      some m.filename := by
  obtain ⟨f0, rest, hfr, hall, hm⟩ := combine_ok_inv req m hok
  have hshape : ∀ f ∈ req.frames, f.shape = f0.shape := by
    intro f hf
    rw [hfr] at hf
    rcases List.mem_cons.mp hf with rfl | hf'
    · rfl
    · exact hall f hf'
  rcases hfr' : fr' with _ | ⟨g0, grest⟩
  · exfalso
    rw [hfr'] at hperm
    have hnil : ([] : List RawFrame) = req.frames := hperm.nil_eq
    rw [hfr] at hnil
    exact absurd hnil (by simp)
  · rw [hfr'] at hperm
    have hmem : ∀ f ∈ g0 :: grest, f ∈ req.frames := fun f hf => hperm.mem_iff.mp hf
    have hg0 : g0.shape = f0.shape := hshape g0 (hmem g0 (by simp))
    have hall' : ∀ f ∈ grest, f.shape = g0.shape := by
      intro f hf
      rw [hg0]
      exact hshape f (hmem f (by simp [hf]))
    have hok' := combine_ok { req with frames := g0 :: grest } g0 grest rfl hall'
    have hpe := stampField_perm req.exposure_time
      ((g0 :: grest).map (fun f => f.exposure_time))
      (req.frames.map (fun f => f.exposure_time)) (hperm.map _)
    have hpg := stampField_perm req.gain
      ((g0 :: grest).map (fun f => f.gain))
      (req.frames.map (fun f => f.gain)) (hperm.map _)
    have hpf := stampField_perm req.filter
      ((g0 :: grest).map (fun f => f.filter))
      (req.frames.map (fun f => f.filter)) (hperm.map _)
    constructor
    · rw [hm]
    · rw [hok']
      simp only [Except.toOption, Option.map]
      rw [hm]
      simp only [hpe, hpg, hpf]

def darkFrameA : RawFrame :=
  { path := "d1", kind := .dark, exposure_time := some 300, gain := some 100,
    filter := none, pixels := [[1]] }

def darkFrameB : RawFrame :=
  { path := "d2", kind := .dark, exposure_time := some 300, gain := some 100,
    filter := none, pixels := [[2]] }

def darkRequest : CombinationRequest :=
  { frames := [darkFrameA, darkFrameB],
    frame_type := .dark, method := .median, rejection := .noRejection,
    exposure_time := none, gain := none, filter := none }

theorem C8_filename_pattern_witness :
    ∃ m, combine darkRequest = .ok m ∧ m.filename = "master_dark_300s_gain100.fits" ∧
      (combine { darkRequest with frames := [darkFrameB, darkFrameA] }).toOption.map
        (fun x => x.filename) = some "master_dark_300s_gain100.fits" := by
  have hok := combine_ok darkRequest darkFrameA [darkFrameB] rfl
    (by norm_num [darkFrameA, darkFrameB, RawFrame.shape, imgShape])
  have h8 := C8_filename_pattern darkRequest _ [darkFrameB, darkFrameA] hok
    (List.Perm.swap darkFrameA darkFrameB [])
  have hname :
      (stampField darkRequest.exposure_time
        (darkRequest.frames.map (fun f => f.exposure_time))).1 = some 300 ∧
      (stampField darkRequest.gain (darkRequest.frames.map (fun f => f.gain))).1 = some 100 ∧
      (stampField darkRequest.filter (darkRequest.frames.map (fun f => f.filter))).1 = none := by
    refine ⟨?_, ?_, ?_⟩ <;>
      simp [darkRequest, darkFrameA, darkFrameB, stampField]
  refine ⟨_, hok, ?_, ?_⟩
  · show masterFilename darkRequest.frame_type
        (stampField darkRequest.exposure_time
          (darkRequest.frames.map (fun f => f.exposure_time))).1
        (stampField darkRequest.gain (darkRequest.frames.map (fun f => f.gain))).1
        (stampField darkRequest.filter (darkRequest.frames.map (fun f => f.filter))).1 = _
    rw [hname.1, hname.2.1, hname.2.2]
    rfl
  · rw [h8.2]
    show some (masterFilename darkRequest.frame_type
        (stampField darkRequest.exposure_time
          (darkRequest.frames.map (fun f => f.exposure_time))).1
        (stampField darkRequest.gain (darkRequest.frames.map (fun f => f.gain))).1
        (stampField darkRequest.filter (darkRequest.frames.map (fun f => f.filter))).1) = _
    rw [hname.1, hname.2.1, hname.2.2]
    rfl


theorem listVar_nonneg (l : List ℚ) : 0 ≤ listVar l := by
  rw [listVar, listMean]
  apply div_nonneg
  · apply List.sum_nonneg
    intro x hx
    obtain ⟨y, _, rfl⟩ := List.mem_map.mp hx
    exact sq_nonneg _
  · exact Nat.cast_nonneg _

theorem shotNoiseVar_nonneg (b1 b2 f1 f2 : RawFrame) : 0 ≤ shotNoiseVar b1 b2 f1 f2 := by
  rw [shotNoiseVar]
  split
  · exact le_refl 0
  · next h => exact le_of_not_lt h

theorem gainEstimate_pos (b1 b2 f1 f2 : RawFrame) : 0 < gainEstimate b1 b2 f1 f2 := by
  rw [gainEstimate]
  split
  · norm_num
  · next hcond =>
      rw [gainDegenerate] at hcond
      push_neg at hcond
      obtain ⟨hsv, hms⟩ := hcond
      refine div_pos (lt_trans (by norm_num [epsSignal]) hms) ?_
      exact lt_of_le_of_ne (shotNoiseVar_nonneg b1 b2 f1 f2) (Ne.symm hsv)

theorem characterizeNotes_ne_nil (b1 b2 f1 f2 : RawFrame) :
    characterizeNotes b1 b2 f1 f2 ≠ [] := by
  rw [characterizeNotes]
  simp

/-- C4: characterize never raises for degraded numeric inputs: for every
frame quadruple with matching dimensions — identical bias pairs, identical
flat pairs, low-signal flats, negative intermediate shot-noise variance
included — it returns a SensorProfile with non-empty notes and positive
gain, and the gain division is performed only when its divisor is
nonzero. -/
theorem C4_characterize_total (b1 b2 f1 f2 : RawFrame) (cm : String) (gs : Option ℤ)
    (h1 : b2.shape = b1.shape) (h2 : f1.shape = b1.shape) (h3 : f2.shape = b1.shape) :
    ∃ p, characterize b1 b2 f1 f2 cm gs = .ok p ∧ p.notes ≠ [] ∧ 0 < p.gain ∧
      (¬ gainDegenerate b1 b2 f1 f2 → shotNoiseVar b1 b2 f1 f2 ≠ 0) := by
  rw [characterize, if_neg (not_not_intro h1), if_neg (not_not_intro h2),
    if_neg (not_not_intro h3)]
  refine ⟨_, rfl, characterizeNotes_ne_nil b1 b2 f1 f2, gainEstimate_pos b1 b2 f1 f2, ?_⟩
  intro hnd
  rw [gainDegenerate] at hnd
  push_neg at hnd
  exact hnd.1

def idBias : RawFrame :=
  { path := "ib", kind := .bias, exposure_time := some 0, gain := none,
    filter := none, pixels := [[100, 100]] }

def idFlat : RawFrame :=
  { path := "if", kind := .flat, exposure_time := some 3, gain := none,
    filter := none, pixels := [[5000, 5000]] }

theorem C4_characterize_total_witness :
    ∃ p, characterize idBias idBias idFlat idFlat "TestCam" none = .ok p ∧
      p.notes ≠ [] ∧ 0 < p.gain ∧
      (¬ gainDegenerate idBias idBias idFlat idFlat →
        shotNoiseVar idBias idBias idFlat idFlat ≠ 0) :=
  C4_characterize_total idBias idBias idFlat idFlat "TestCam" none rfl rfl rfl

/-- C5: for every non-degenerate characterization input the returned
profile satisfies the paired-frame relations — read noise in ADU is the
standard deviation of the bias-difference image divided by the square root
of 2, gain is the mean flat signal divided by the shot-noise variance
derived from the flat-pair difference, and read noise in electrons is the
ADU read noise multiplied by the gain. -/
theorem C5_characterize_relations (b1 b2 f1 f2 : RawFrame) (cm : String) (gs : Option ℤ)
    (h1 : b2.shape = b1.shape) (h2 : f1.shape = b1.shape) (h3 : f2.shape = b1.shape)
    (hvb : biasDiffVar b1 b2 ≠ 0)
    (hsv : 0 < shotNoiseVarRaw b1 b2 f1 f2)
    (hms : epsSignal < meanFlatSignal f1 f2) :
    ∃ p, characterize b1 b2 f1 f2 cm gs = .ok p ∧
      p.read_noise_adu = listStd (flattenI (diffImage b1.pixels b2.pixels)) / Real.sqrt 2 ∧
      p.gain = meanFlatSignal f1 f2 /
        (flatDiffVar f1 f2 / 2 - biasDiffVar b1 b2 / 2) ∧
      p.read_noise_e = p.read_noise_adu * (p.gain : ℝ) := by
  rw [characterize, if_neg (not_not_intro h1), if_neg (not_not_intro h2),
    if_neg (not_not_intro h3)]
  have hrn : readNoiseSq b1 b2 = biasDiffVar b1 b2 / 2 := by
    rw [readNoiseSq, if_neg hvb]
  have hsvv : shotNoiseVar b1 b2 f1 f2 = shotNoiseVarRaw b1 b2 f1 f2 := by
    rw [shotNoiseVar, if_neg (not_lt.mpr hsv.le)]
  have hnd : ¬ gainDegenerate b1 b2 f1 f2 := by
    rw [gainDegenerate, hsvv]
    push_neg
    exact ⟨hsv.ne', hms⟩
  refine ⟨_, rfl, ?_, ?_, rfl⟩
  · show Real.sqrt ((readNoiseSq b1 b2 : ℚ) : ℝ) = _
    rw [hrn]
    rw [listStd]
    push_cast
    rw [Real.sqrt_div (by exact_mod_cast listVar_nonneg (flattenI (diffImage b1.pixels b2.pixels))) 2]
    rfl
  · show gainEstimate b1 b2 f1 f2 = _
    rw [gainEstimate, if_neg hnd, hsvv, shotNoiseVarRaw, hrn]

def nzBias1 : RawFrame :=
  { path := "b1", kind := .bias, exposure_time := some 0, gain := none,
    filter := none, pixels := [[0, 2]] }

def nzBias2 : RawFrame :=
  { path := "b2", kind := .bias, exposure_time := some 0, gain := none,
    filter := none, pixels := [[0, 0]] }

def nzFlat1 : RawFrame :=
  { path := "f1", kind := .flat, exposure_time := some 3, gain := none,
    filter := none, pixels := [[100, 104]] }

def nzFlat2 : RawFrame :=
  { path := "f2", kind := .flat, exposure_time := some 3, gain := none,
    filter := none, pixels := [[100, 100]] }

theorem C5_characterize_relations_witness :
    (biasDiffVar nzBias1 nzBias2 ≠ 0 ∧ 0 < shotNoiseVarRaw nzBias1 nzBias2 nzFlat1 nzFlat2 ∧
      epsSignal < meanFlatSignal nzFlat1 nzFlat2) ∧
    ∃ p, characterize nzBias1 nzBias2 nzFlat1 nzFlat2 "TestCam" (some 100) = .ok p ∧
      p.read_noise_adu =
        listStd (flattenI (diffImage nzBias1.pixels nzBias2.pixels)) / Real.sqrt 2 ∧
      p.gain = meanFlatSignal nzFlat1 nzFlat2 /
        (flatDiffVar nzFlat1 nzFlat2 / 2 - biasDiffVar nzBias1 nzBias2 / 2) ∧
      p.read_noise_e = p.read_noise_adu * (p.gain : ℝ) := by
  have hvb : biasDiffVar nzBias1 nzBias2 ≠ 0 := by
    norm_num [biasDiffVar, nzBias1, nzBias2, diffImage, flattenI, listVar, listMean]
  have hsv : 0 < shotNoiseVarRaw nzBias1 nzBias2 nzFlat1 nzFlat2 := by
    norm_num [shotNoiseVarRaw, flatDiffVar, readNoiseSq, biasDiffVar, nzBias1, nzBias2,
      nzFlat1, nzFlat2, diffImage, flattenI, listVar, listMean]
  have hms : epsSignal < meanFlatSignal nzFlat1 nzFlat2 := by
    norm_num [epsSignal, meanFlatSignal, nzFlat1, nzFlat2, flattenI, listMean]
  exact ⟨⟨hvb, hsv, hms⟩,
    C5_characterize_relations nzBias1 nzBias2 nzFlat1 nzFlat2 "TestCam" (some 100)
      rfl rfl rfl hvb hsv hms⟩

/-- C10: when at least 2 bias and 2 flat files are selected, the
characterization request contains exactly the first two selected bias
files (bias1, bias2) and the first two selected flat files (flat1, flat2);
additional files are silently ignored (the request equals the one built
from the truncated lists), and if fewer than 2 of either kind are selected
— or either list is missing — no request is sent at all. -/
theorem C10_first_two_files (bs fs : List String) (cm : Option String) (gs : Option ℤ)
    (hb : 2 ≤ bs.length) (hf : 2 ≤ fs.length) :
    handleUpload (some bs) (some fs) cm gs = some
      { bias1 := bs.getD 0 "", bias2 := bs.getD 1 "",
        flat1 := fs.getD 0 "", flat2 := fs.getD 1 "",
        camera_model := cm.getD "Unknown Camera", gain_setting := gs.map toString } ∧
    handleUpload (some bs) (some fs) cm gs =
      handleUpload (some (bs.take 2)) (some (fs.take 2)) cm gs ∧
    (∀ bs' fs' : List String, bs'.length < 2 ∨ fs'.length < 2 →
      handleUpload (some bs') (some fs') cm gs = none) ∧
    (∀ x : Option (List String),
      handleUpload none x cm gs = none ∧ handleUpload x none cm gs = none) := by
  rcases bs with _ | ⟨a, t⟩
  · simp at hb
  rcases t with _ | ⟨b, t⟩
  · simp at hb
  rcases fs with _ | ⟨c, u⟩
  · simp at hf
  rcases u with _ | ⟨d, u⟩
  · simp at hf
  refine ⟨?_, ?_, ?_, ?_⟩
  · rw [handleUpload]
    rw [if_neg (by simp), if_neg (by simp)]
  · rw [handleUpload, if_neg (by simp), if_neg (by simp)]
    show _ = handleUpload (some [a, b]) (some [c, d]) cm gs
    rw [handleUpload, if_neg (by simp), if_neg (by simp)]
    rfl
  · intro bs' fs' hlt
    rw [handleUpload]
    rcases hlt with h | h
    · rw [if_pos h]
    · by_cases hb' : bs'.length < 2
      · rw [if_pos hb']
      · rw [if_neg hb', if_pos h]
  · intro x
    rcases x with _ | l
    · exact ⟨rfl, rfl⟩
    · exact ⟨rfl, rfl⟩

theorem C10_first_two_files_witness :
    handleUpload (some ["b1", "b2", "b3"]) (some ["f1", "f2"]) (some "ZWO ASI2600")
      (some 100) = some
      { bias1 := "b1", bias2 := "b2", flat1 := "f1", flat2 := "f2",
        camera_model := "ZWO ASI2600", gain_setting := some "100" } ∧
    handleUpload (some ["b1"]) (some ["f1", "f2"]) (some "ZWO ASI2600") (some 100) = none := by
  have h := C10_first_two_files ["b1", "b2", "b3"] ["f1", "f2"] (some "ZWO ASI2600")
    (some 100) (by norm_num) (by norm_num)
  exact ⟨h.1, h.2.2.1 ["b1"] ["f1", "f2"] (Or.inl (by norm_num))⟩

end Astroalex
